import Mathlib

/-!
# Kinetic Risk Shield — verification of the risk-scoring core

Shallow embedding of the risk-scoring engine of `src/src/pages/Index.tsx`:
the risk weight configuration, the event bus, the `useRiskEngine` state
(score, indicators, history) with its event/decay/history/toggle updates,
the band classification, and the payment-submission producer guard.

Numbers: every score-path value in the source is an integer-valued JS
number; we embed scores as `Int`.  The single non-integer operation is the
decay step `Math.round(s * 0.9)`.  For every integer `0 ≤ s ≤ 100` the
binary64 evaluation of `s * 0.9` rounds to a double that `Math.round`
(round half toward +∞) sends to exactly `⌊9·s/10 + 1/2⌋`: the double
nearest to 0.9 is `0.9 + δ` with `δ ≈ 2.22e-17`, so the product is within
`100·δ + ulp ≈ 6e-15` of the rational `9·s/10`, which moves no value
across a rounding boundary; at the exact ties `s ∈ {5, 15, …, 95}` the
perturbation `s·δ` is below a half-ulp of the half-integer, so the product
is exactly `k + 1/2` and `Math.round` takes it up.  We therefore embed the
decay rounding as `⌊q + 1/2⌋` over `ℚ`.
-/

/-- The six anomaly event types (keys of `riskConfig.weights`). -/
inductive RiskEventType where
  | SIM_SWAP
  | VPN
  | DEVICE_CHANGE
  | LOCATION_MISMATCH
  | TYPING_ANOMALY
  | LARGE_TRANSFER
deriving DecidableEq, Repr

open RiskEventType

/-- `riskConfig.weights` (Index.tsx lines 37–44). -/
def riskWeight : RiskEventType → Int
  | SIM_SWAP => 30
  | VPN => 25
  | DEVICE_CHANGE => 20
  | LOCATION_MISMATCH => 15
  | TYPING_ANOMALY => 10
  | LARGE_TRANSFER => 35

/-- `riskConfig.thresholds.largeTransfer` (Index.tsx line 46). -/
def largeTransferThreshold : ℚ := 50000

/-- `clamp(v, min, max) = Math.max(min, Math.min(max, v))` (Index.tsx line 71). -/
def clamp (v lo hi : Int) : Int := max lo (min hi v)

/-- JS `Math.round`: round to nearest, ties toward +∞, i.e. `⌊q + 1/2⌋`. -/
def jsMathRound (q : ℚ) : Int := ⌊q + 1/2⌋

/-- The decay-tick update `(s) => Math.max(0, Math.round(s * 0.9))`
(Index.tsx line 91).  See the file header for why the binary64
evaluation of `s * 0.9` agrees with exact rational arithmetic here. -/
def decayScore (s : Int) : Int := max 0 (jsMathRound ((s : ℚ) * (9/10)))

/-- Round-half-up of `9·s/10` is the integer floor division `(9·s+5)/10`. -/
lemma jsMathRound_decay (s : Int) :
    jsMathRound ((s : ℚ) * (9/10)) = (9 * s + 5) / 10 := by
  have h : ((s : ℚ) * (9/10) + 1/2) = ((9 * s + 5 : ℤ) : ℚ) / ((10 : ℕ) : ℚ) := by
    push_cast
    ring
  rw [jsMathRound, h, Rat.floor_intCast_div_natCast]
  norm_num

/-- On nonnegative scores the decay step is the integer computation
`(9·s + 5) / 10` (round-half-up of `9·s/10`; the `max 0` guard is inert). -/
lemma decayScore_eq_of_nonneg (s : Int) (hs : 0 ≤ s) :
    decayScore s = (9 * s + 5) / 10 := by
  have h3 : 0 ≤ (9 * s + 5) / 10 := Int.ediv_nonneg (by omega) (by norm_num)
  rw [decayScore, jsMathRound_decay, max_eq_right h3]

/-- JS `arr.slice(-n)`: the suffix of the last `n` elements (the whole
array when it is shorter than `n`).  Used at Index.tsx line 101 as
`next.slice(-60)`. -/
def jsSliceLast (n : Nat) (l : List α) : List α := l.drop (l.length - n)

/-! ## Indicators as a JS object

The `indicators` state is a JS object initialised with the five
non-transfer keys (Index.tsx lines 78–84).  The event listener updates it
with a computed key, `{ ...prev, [type]: true } as any` (line 112): spread
followed by a computed-key write, which overwrites the key in place when
present and otherwise appends a new property in insertion order.  We model
the object as an insertion-ordered association list. -/

/-- JS property read `obj[k]` coerced to boolean: a missing property is
`undefined`, which is falsy. -/
def getKey (m : List (RiskEventType × Bool)) (k : RiskEventType) : Bool :=
  ((m.find? fun p => p.1 = k).map Prod.snd).getD false

/-- JS property write `{ ...obj, [k]: b }`: overwrite in place when the key
is present, else append the new property. -/
def setKey (m : List (RiskEventType × Bool)) (k : RiskEventType) (b : Bool) :
    List (RiskEventType × Bool) :=
  if m.any (fun p => p.1 = k) then
    m.map (fun p => if p.1 = k then (k, b) else p)
  else
    m ++ [(k, b)]

/-- `IndicatorKey` (Index.tsx line 263): the five keys of the initial
`indicators` object, which is also `keyof typeof indicators`, the domain of
`toggleIndicator`. -/
inductive IndicatorKey where
  | SIM_SWAP
  | VPN
  | DEVICE_CHANGE
  | LOCATION_MISMATCH
  | TYPING_ANOMALY
deriving DecidableEq, Repr

/-- The event type named by an indicator key. -/
def IndicatorKey.toEventType : IndicatorKey → RiskEventType
  | .SIM_SWAP => RiskEventType.SIM_SWAP
  | .VPN => RiskEventType.VPN
  | .DEVICE_CHANGE => RiskEventType.DEVICE_CHANGE
  | .LOCATION_MISMATCH => RiskEventType.LOCATION_MISMATCH
  | .TYPING_ANOMALY => RiskEventType.TYPING_ANOMALY

/-! ## The engine state machine (`useRiskEngine`, Index.tsx lines 75–126) -/

/-- The mutable state of `useRiskEngine`: `score`, `history` (entries
`{t, v}`), and the `indicators` object. -/
structure EngineState where
  score : Int
  history : List (Nat × Int)
  indicators : List (RiskEventType × Bool)
deriving DecidableEq, Repr

/-- Initial state: `score = 0`, `history = []`, the five indicator keys all
false (Index.tsx lines 76–84). -/
def initState : EngineState :=
  { score := 0
    history := []
    indicators :=
      [(SIM_SWAP, false), (VPN, false), (DEVICE_CHANGE, false),
       (LOCATION_MISMATCH, false), (TYPING_ANOMALY, false)] }

/-- Event receipt (the bus listener, Index.tsx lines 109–113):
`setScore(s => clamp(s + weight, 0, 100))` and
`setIndicators(prev => ({ ...prev, [type]: true }))`. -/
def onEvent (ty : RiskEventType) (st : EngineState) : EngineState :=
  { st with
    score := clamp (st.score + riskWeight ty) 0 100
    indicators := setKey st.indicators ty true }

/-- Decay tick (Index.tsx lines 89–94). -/
def decayTick (st : EngineState) : EngineState :=
  { st with score := decayScore st.score }

/-- History tick (Index.tsx lines 97–105): append `{t, v: score}` and keep
the last 60 entries via `slice(-60)`. -/
def historyTick (t : Nat) (st : EngineState) : EngineState :=
  { st with history := jsSliceLast 60 (st.history ++ [(t, st.score)]) }

/-- `toggleIndicator(key, on?)` (Index.tsx lines 118–123): set
`indicators[key] = on ?? !prev[key]`; it never touches `score`. -/
def toggleIndicator (key : IndicatorKey) (on? : Option Bool)
    (st : EngineState) : EngineState :=
  { st with
    indicators :=
      setKey st.indicators key.toEventType
        (on?.getD (! getKey st.indicators key.toEventType)) }

/-- One engine stimulus: a bus event, a decay tick, a history tick (with
its wall-clock timestamp), or a manual indicator toggle. -/
inductive Step where
  | event (ty : RiskEventType)
  | decay
  | hist (t : Nat)
  | toggle (key : IndicatorKey) (on? : Option Bool)
deriving DecidableEq, Repr

/-- Apply one stimulus to the engine state. -/
def applyStep (st : EngineState) : Step → EngineState
  | .event ty => onEvent ty st
  | .decay => decayTick st
  | .hist t => historyTick t st
  | .toggle k o => toggleIndicator k o st

/-- Run the engine from its initial state over a sequence of stimuli. -/
def runSteps (steps : List Step) : EngineState :=
  steps.foldl applyStep initState

/-! ## Band classification

The band is derived from the score in three places, all with the same
thresholds: `RiskPanel` (text and colour, Index.tsx lines 302–303),
`Gauge.bandColor` (lines 139–143) and the screen-reader announcement in
`PageShell` (line 808). -/

/-- `RiskPanel`'s `bandText` (Index.tsx line 302):
`score >= 70 ? "High Risk" : score >= 31 ? "Caution" : "Safe"`. -/
def riskPanelBandText (score : Int) : String :=
  if score ≥ 70 then "High Risk" else if score ≥ 31 then "Caution" else "Safe"

/-- `RiskPanel`'s `bandColor` (Index.tsx line 303). -/
def riskPanelBandColor (score : Int) : String :=
  if score ≥ 70 then "var(--risk-red)"
  else if score ≥ 31 then "var(--risk-yellow)"
  else "var(--risk-green)"

/-- `Gauge`'s `bandColor` (Index.tsx lines 139–143). -/
def gaugeBandColor (v : Int) : String :=
  if v ≥ 70 then "var(--risk-red)"
  else if v ≥ 31 then "var(--risk-yellow)"
  else "var(--risk-green)"

/-- The band text of the screen-reader announcement (Index.tsx line 808):
`score >= 70 ? "High Risk" : score >= 31 ? "Caution" : "Safe"`. -/
def srBandText (score : Int) : String :=
  if score ≥ 70 then "High Risk" else if score ≥ 31 then "Caution" else "Safe"

/-! ## The payment-submission producer (`PaymentsPage`, Index.tsx lines 596–604)

`submit` emits `LARGE_TRANSFER` with metadata `{ amount }` exactly when
`amount > riskConfig.thresholds.largeTransfer`; otherwise no event is
emitted.  Amounts come from `parseFloat`, so we use `ℚ`. -/

/-- An emitted bus event as constructed by `bus.emit(type, meta)`: the type
together with its metadata record (here only the `amount` field occurs). -/
structure EmittedEvent where
  type : RiskEventType
  meta : List (String × ℚ)
deriving DecidableEq, Repr

/-- `PaymentsPage.submit`'s emission guard (Index.tsx lines 598–601):
the event emitted for a submitted amount, if any. -/
def paymentsSubmitEmission (amount : ℚ) : Option EmittedEvent :=
  if amount > largeTransferThreshold then
    some { type := LARGE_TRANSFER, meta := [("amount", amount)] }
  else
    none

/-! ## The event bus (`createEventBus`, Index.tsx lines 53–66)

`listeners` is a JS `Set` of listener references; `on` adds a listener and
returns `() => { listeners.delete(fn) }`; `emit` invokes every currently
registered listener.  We identify listeners by an abstract id and model the
`Set` as a `Finset ℕ`. -/

/-- `bus.on(fn)`: `listeners.add(fn)`. -/
def busSubscribe (listeners : Finset ℕ) (id : ℕ) : Finset ℕ :=
  insert id listeners

/-- The unsubscribe closure returned by `bus.on`: `listeners.delete(fn)`. -/
def busUnsubscribe (listeners : Finset ℕ) (id : ℕ) : Finset ℕ :=
  listeners.erase id

/-- `bus.emit` invokes exactly the currently registered listeners
(`listeners.forEach((l) => l(payload))`). -/
def emitRecipients (listeners : Finset ℕ) : Finset ℕ := listeners

/-- A bus registration action: some listener subscribing or unsubscribing. -/
inductive BusOp where
  | subscribe (j : ℕ)
  | unsubscribe (j : ℕ)
deriving DecidableEq, Repr

/-- Apply one registration action to the listener set. -/
def applyBusOp (s : Finset ℕ) : BusOp → Finset ℕ
  | .subscribe j => busSubscribe s j
  | .unsubscribe j => busUnsubscribe s j

/-- A listener absent from the set stays absent under any sequence of
actions that never re-subscribes it. -/
lemma notMem_applyBusOps (id : ℕ) (ops : List BusOp) :
    ∀ s : Finset ℕ, id ∉ s → BusOp.subscribe id ∉ ops →
      id ∉ ops.foldl applyBusOp s := by
  induction ops with
  | nil => intro s hs _; exact hs
  | cons op rest ih =>
    intro s hs hops
    have hop : op ≠ BusOp.subscribe id := fun h => hops (h ▸ List.mem_cons_self op rest)
    have hrest : BusOp.subscribe id ∉ rest := fun h => hops (List.mem_cons_of_mem op h)
    refine ih (applyBusOp s op) ?_ hrest
    cases op with
    | subscribe j =>
      have hj : j ≠ id := fun h => hop (by rw [h])
      simp only [applyBusOp, busSubscribe, Finset.mem_insert]
      rintro (h | h)
      · exact hj h.symm
      · exact hs h
    | unsubscribe j =>
      simp only [applyBusOp, busUnsubscribe, Finset.mem_erase]
      rintro ⟨_, h⟩
      exact hs h

/-! ## Helper lemmas about the indicator object -/

/-- Overwriting key `k` in place leaves `find?` for any other key alone. -/
lemma find?_map_overwrite (m : List (RiskEventType × Bool))
    (k k' : RiskEventType) (b : Bool) (hk : k' ≠ k) :
    (m.map (fun p => if p.1 = k then (k, b) else p)).find? (fun p => p.1 = k')
      = m.find? (fun p => p.1 = k') := by
  induction m with
  | nil => rfl
  | cons p rest ih =>
    by_cases hp : p.1 = k
    · have h1 : ¬((k, b).1 = k') := fun h => hk (h.symm)
      have h2 : ¬(p.1 = k') := by rw [hp]; exact h1
      rw [List.map_cons, if_pos hp, List.find?_cons_of_neg _ (by simpa using h1),
        List.find?_cons_of_neg _ (by simpa using h2), ih]
    · rw [List.map_cons, if_neg hp]
      by_cases hq : p.1 = k'
      · rw [List.find?_cons_of_pos _ (by simpa using hq),
          List.find?_cons_of_pos _ (by simpa using hq)]
      · rw [List.find?_cons_of_neg _ (by simpa using hq),
          List.find?_cons_of_neg _ (by simpa using hq), ih]

/-- When key `k` is present, overwriting it in place makes `find?` for `k`
return the new entry. -/
lemma find?_map_overwrite_same (m : List (RiskEventType × Bool))
    (k : RiskEventType) (b : Bool) (hmem : m.any (fun p => p.1 = k)) :
    (m.map (fun p => if p.1 = k then (k, b) else p)).find? (fun p => p.1 = k)
      = some (k, b) := by
  induction m with
  | nil => simp at hmem
  | cons p rest ih =>
    by_cases hp : p.1 = k
    · rw [List.map_cons, if_pos hp, List.find?_cons_of_pos _ (by simp)]
    · have hrest : rest.any (fun p => p.1 = k) := by
        simp only [List.any_cons, Bool.or_eq_true, decide_eq_true_eq] at hmem
        rcases hmem with h | h
        · exact absurd h hp
        · exact h
      rw [List.map_cons, if_neg hp, List.find?_cons_of_neg _ (by simpa using hp),
        ih hrest]

/-- Reading back the key just written returns the written value. -/
lemma getKey_setKey_same (m : List (RiskEventType × Bool))
    (k : RiskEventType) (b : Bool) : getKey (setKey m k b) k = b := by
  unfold getKey setKey
  by_cases hmem : m.any (fun p => p.1 = k)
  · rw [if_pos hmem, find?_map_overwrite_same m k b hmem]
    rfl
  · rw [if_neg hmem, List.find?_append]
    have hnone : m.find? (fun p => p.1 = k) = none := by
      rw [List.find?_eq_none]
      intro p hp hpk
      exact hmem (List.any_eq_true.mpr ⟨p, hp, hpk⟩)
    rw [hnone, List.find?_cons_of_pos _ (by simp)]
    rfl

/-- Writing key `k` does not change the value read at any other key. -/
lemma getKey_setKey_other (m : List (RiskEventType × Bool))
    (k k' : RiskEventType) (b : Bool) (hk : k' ≠ k) :
    getKey (setKey m k b) k' = getKey m k' := by
  unfold getKey setKey
  by_cases hmem : m.any (fun p => p.1 = k)
  · rw [if_pos hmem, find?_map_overwrite m k k' b hk]
  · rw [if_neg hmem, List.find?_append,
      List.find?_cons_of_neg _ (by simpa using fun h => hk h.symm)]
    simp [Option.or_none]

/-! ## Helper lemmas about the history window -/

/-- The windowed history always has at most `n` entries. -/
lemma jsSliceLast_length_le (n : Nat) (l : List α) :
    (jsSliceLast n l).length ≤ n := by
  simp only [jsSliceLast, List.length_drop]
  omega

/-- Truncating, appending, and truncating again is the same as appending
and truncating once: the 60-entry window of the engine history is the
window of the full sample stream. -/
lemma jsSliceLast_append_absorb (n : Nat) (l l' : List α) :
    jsSliceLast n (jsSliceLast n l ++ l') = jsSliceLast n (l ++ l') := by
  unfold jsSliceLast
  rw [List.drop_append_eq_append_drop, List.drop_append_eq_append_drop,
    List.drop_drop]
  have e1 : l.length - n + ((l.drop (l.length - n) ++ l').length - n)
      = (l ++ l').length - n := by
    simp only [List.length_append, List.length_drop]
    omega
  have e2 : (l.drop (l.length - n) ++ l').length - n - (l.drop (l.length - n)).length
      = (l ++ l').length - n - l.length := by
    simp only [List.length_append, List.length_drop]
    omega
  rw [e1, e2]

/-- The chronological stream of history samples produced by a stimulus
sequence: each history tick contributes `(t, score at that instant)`. -/
def runCollect : EngineState → List Step → List (Nat × Int)
  | _, [] => []
  | st, s :: rest =>
    (match s with
     | .hist t => [(t, st.score)]
     | _ => []) ++ runCollect (applyStep st s) rest

/-- The samples generated by a run from the initial state. -/
def historySamples (steps : List Step) : List (Nat × Int) :=
  runCollect initState steps

/-- The engine history is exactly the 60-entry window of the sample
stream: running from a state whose history is the window of `H` leaves a
history that is the window of `H` extended by the new samples. -/
lemma history_foldl (steps : List Step) :
    ∀ (st : EngineState) (H : List (Nat × Int)),
      st.history = jsSliceLast 60 H →
      (steps.foldl applyStep st).history
        = jsSliceLast 60 (H ++ runCollect st steps) := by
  induction steps with
  | nil =>
    intro st H h
    simpa [runCollect] using h
  | cons s rest ih =>
    intro st H h
    cases s with
    | hist t =>
      have h' : (applyStep st (Step.hist t)).history
          = jsSliceLast 60 ((H ++ [(t, st.score)])) := by
        show (historyTick t st).history = _
        unfold historyTick
        rw [h, jsSliceLast_append_absorb]
      rw [List.foldl_cons, ih _ _ h']
      simp [runCollect]
    | event ty =>
      rw [List.foldl_cons, ih (applyStep st (Step.event ty)) H h]
      simp [runCollect]
    | decay =>
      rw [List.foldl_cons, ih (applyStep st Step.decay) H h]
      simp [runCollect]
    | toggle k o =>
      rw [List.foldl_cons, ih (applyStep st (Step.toggle k o)) H h]
      simp [runCollect]

/-- One hundred history ticks, with timestamps 1, 2, …, 100. -/
def hundredTicks : List Step :=
  (List.range 100).map (fun i => Step.hist (i + 1))

/-! ## Helper lemmas about the score bounds -/

/-- Every single stimulus keeps the score in `[0, 100]`. -/
lemma score_bounds_step (st : EngineState) (s : Step)
    (h0 : 0 ≤ st.score) (h100 : st.score ≤ 100) :
    0 ≤ (applyStep st s).score ∧ (applyStep st s).score ≤ 100 := by
  cases s with
  | event ty =>
    show 0 ≤ clamp (st.score + riskWeight ty) 0 100 ∧
      clamp (st.score + riskWeight ty) 0 100 ≤ 100
    unfold clamp
    exact ⟨le_max_left 0 _, max_le (by norm_num) (min_le_left _ _)⟩
  | decay =>
    show 0 ≤ decayScore st.score ∧ decayScore st.score ≤ 100
    rw [decayScore_eq_of_nonneg st.score h0]
    omega
  | hist t => exact ⟨h0, h100⟩
  | toggle k o => exact ⟨h0, h100⟩

/-- A run from a state with score in `[0, 100]` stays in `[0, 100]`. -/
lemma score_bounds_run (steps : List Step) :
    ∀ st : EngineState, 0 ≤ st.score → st.score ≤ 100 →
      0 ≤ (steps.foldl applyStep st).score ∧
        (steps.foldl applyStep st).score ≤ 100 := by
  induction steps with
  | nil => exact fun st h0 h1 => ⟨h0, h1⟩
  | cons s rest ih =>
    intro st h0 h1
    have hb := score_bounds_step st s h0 h1
    rw [List.foldl_cons]
    exact ih _ hb.1 hb.2

/-! ## The claims -/

/-- C1: for every sequence of emitted anomaly events, in any order,
interleaved with any number of decay (and history, and toggle) ticks, the
engine's score lies in the closed range `[0, 100]` after each step — in
particular after each processed event. -/
theorem c1_score_clamp_invariant (steps : List Step) :
    0 ≤ (runSteps steps).score ∧ (runSteps steps).score ≤ 100 :=
  score_bounds_run steps initState (by decide) (by decide)

/-- C2 counterexample: the decay tick on score 5 yields 5, not the 4 the
claim asserts — JS `Math.round` rounds half toward +∞, and the binary64
product `5 * 0.9` is exactly `4.5`, so `Math.round(4.5) = 5`. -/
theorem c2_decay_counterexample : decayScore 5 = 5 ∧ decayScore 5 ≠ 4 := by
  have h : decayScore 5 = 5 := by
    rw [decayScore_eq_of_nonneg 5 (by norm_num)]
    decide
  exact ⟨h, by rw [h]; decide⟩

/-- C2 (amended): a decay tick maps a score `s ∈ [0, 100]` to
`clamp(round(s × 0.9), 0, 100)` with round-half-up rounding; a decay tick
on score 100 yields 90, and on score 5 yields `roundHalfUp(4.5) = 5`. -/
theorem c2_decay_formula_amended :
    (∀ s : Int, 0 ≤ s → s ≤ 100 →
      decayScore s = clamp (jsMathRound ((s : ℚ) * (9/10))) 0 100) ∧
    decayScore 100 = 90 ∧ decayScore 5 = 5 := by
  refine ⟨fun s h0 h1 => ?_, ?_, ?_⟩
  · rw [decayScore, jsMathRound_decay, clamp,
      min_eq_right (show (9 * s + 5) / 10 ≤ 100 by omega)]
  · rw [decayScore_eq_of_nonneg 100 (by norm_num)]
    decide
  · rw [decayScore_eq_of_nonneg 5 (by norm_num)]
    decide

/-- Witness for C2 (amended) at the concrete score 37. -/
theorem c2_decay_formula_amended_witness :
    decayScore 37 = clamp (jsMathRound ((37 : ℚ) * (9/10))) 0 100 :=
  c2_decay_formula_amended.1 37 (by norm_num) (by norm_num)

/-- C3: from score 0 with no intervening decay ticks, one SIM_SWAP yields
score 30, two in succession yield 60, four yield 100 (clamped), not 120. -/
theorem c3_sim_swap_accumulation :
    (runSteps [Step.event SIM_SWAP]).score = 30 ∧
    (runSteps [Step.event SIM_SWAP, Step.event SIM_SWAP]).score = 60 ∧
    (runSteps (List.replicate 4 (Step.event SIM_SWAP))).score = 100 := by
  decide

set_option maxRecDepth 20000 in
/-- C4: for every run, the history is exactly the 60-entry window of the
chronological sample stream (so it never exceeds 60 entries and the oldest
entries are evicted first); after 100 history ticks it has exactly 60
entries and its first entry is the sample taken at tick 41. -/
theorem c4_history_window :
    (∀ steps : List Step,
      (runSteps steps).history = jsSliceLast 60 (historySamples steps) ∧
      (runSteps steps).history.length ≤ 60) ∧
    (runSteps hundredTicks).history.length = 60 ∧
    (runSteps hundredTicks).history.head? = (historySamples hundredTicks)[40]? ∧
    (runSteps hundredTicks).history.head? = some (41, 0) := by
  have key : ∀ steps : List Step,
      (runSteps steps).history = jsSliceLast 60 (historySamples steps) := by
    intro steps
    have h := history_foldl steps initState [] (by rfl)
    simpa [runSteps, historySamples] using h
  refine ⟨fun steps => ⟨key steps, ?_⟩, by decide, by decide, by decide⟩
  rw [key steps]
  exact jsSliceLast_length_le 60 _

/-- C5 counterexample: receiving a LARGE_TRANSFER event does not leave the
indicator mapping unchanged — the listener's computed-key write
`{ ...prev, [type]: true }` adds a sixth key `LARGE_TRANSFER` to the
object, so the domain is no longer the five indicator types. -/
theorem c5_indicator_domain_counterexample :
    (onEvent LARGE_TRANSFER initState).indicators ≠ initState.indicators ∧
    ((onEvent LARGE_TRANSFER initState).indicators.map Prod.fst)
      = [SIM_SWAP, VPN, DEVICE_CHANGE, LOCATION_MISMATCH, TYPING_ANOMALY,
         LARGE_TRANSFER] := by
  decide

/-- C5 (amended): on receipt of an event of type T the listener sets
`indicators[T] = true` for every type T — including LARGE_TRANSFER, which
appends a sixth key to the mapping rather than leaving it unchanged; the
values at all other keys are untouched. -/
theorem c5_indicator_update_amended :
    ∀ (st : EngineState) (ty k : RiskEventType),
      getKey (onEvent ty st).indicators ty = true ∧
      (k ≠ ty → getKey (onEvent ty st).indicators k = getKey st.indicators k) ∧
      ((onEvent LARGE_TRANSFER initState).indicators.map Prod.fst)
        = [SIM_SWAP, VPN, DEVICE_CHANGE, LOCATION_MISMATCH, TYPING_ANOMALY,
           LARGE_TRANSFER] := by
  intro st ty k
  refine ⟨?_, fun hk => ?_, by decide⟩
  · exact getKey_setKey_same st.indicators ty true
  · exact getKey_setKey_other st.indicators ty k true hk

/-- Witness for C5 (amended): a VPN event sets the VPN flag and leaves the
SIM_SWAP flag alone. -/
theorem c5_indicator_update_amended_witness :
    getKey (onEvent VPN initState).indicators VPN = true ∧
    getKey (onEvent VPN initState).indicators SIM_SWAP
      = getKey initState.indicators SIM_SWAP :=
  ⟨(c5_indicator_update_amended initState VPN SIM_SWAP).1,
   (c5_indicator_update_amended initState VPN SIM_SWAP).2.1 (by decide)⟩

/-- C6: the band classification satisfies exactly: score ≥ 70 yields
"High Risk", 31 ≤ score ≤ 69 yields "Caution", score ≤ 30 yields "Safe"
(so 30 → Safe, 31 and 69 → Caution, 70 → High Risk), and every place the
band is computed — RiskPanel's text and colour, Gauge's colour, and the
screen-reader announcement — uses this identical rule. -/
theorem c6_band_classification :
    ∀ s : Int,
      (70 ≤ s → riskPanelBandText s = "High Risk") ∧
      (31 ≤ s ∧ s ≤ 69 → riskPanelBandText s = "Caution") ∧
      (s ≤ 30 → riskPanelBandText s = "Safe") ∧
      srBandText s = riskPanelBandText s ∧
      gaugeBandColor s = riskPanelBandColor s ∧
      (riskPanelBandText 30 = "Safe" ∧ riskPanelBandText 31 = "Caution" ∧
       riskPanelBandText 69 = "Caution" ∧ riskPanelBandText 70 = "High Risk") ∧
      (70 ≤ s → riskPanelBandColor s = "var(--risk-red)") ∧
      (31 ≤ s ∧ s ≤ 69 → riskPanelBandColor s = "var(--risk-yellow)") ∧
      (s ≤ 30 → riskPanelBandColor s = "var(--risk-green)") := by
  intro s
  unfold riskPanelBandText riskPanelBandColor srBandText gaugeBandColor
  refine ⟨fun h => ?_, fun h => ?_, fun h => ?_, rfl, rfl, ⟨rfl, rfl, rfl, rfl⟩,
    fun h => ?_, fun h => ?_, fun h => ?_⟩
  · rw [if_pos h]
  · rw [if_neg (show ¬70 ≤ s by omega), if_pos (show 31 ≤ s by omega)]
  · rw [if_neg (show ¬70 ≤ s by omega), if_neg (show ¬31 ≤ s by omega)]
  · rw [if_pos h]
  · rw [if_neg (show ¬70 ≤ s by omega), if_pos (show 31 ≤ s by omega)]
  · rw [if_neg (show ¬70 ≤ s by omega), if_neg (show ¬31 ≤ s by omega)]

/-- Witness for C6 at the boundary scores 70 and 45. -/
theorem c6_band_classification_witness :
    riskPanelBandText 70 = "High Risk" ∧ riskPanelBandText 45 = "Caution" :=
  ⟨(c6_band_classification 70).1 (by norm_num),
   (c6_band_classification 45).2.1 (by norm_num)⟩

/-- C7: for every engine state, `toggleIndicator("VPN", true)` sets the
VPN indicator true and leaves the score unchanged; more generally the
manual toggle path never changes the score (nor the history) for any
indicator key and any explicit or omitted value. -/
theorem c7_toggle_never_changes_score :
    ∀ (st : EngineState) (k : IndicatorKey) (o : Option Bool),
      (toggleIndicator k o st).score = st.score ∧
      (toggleIndicator k o st).history = st.history ∧
      getKey (toggleIndicator IndicatorKey.VPN (some true) st).indicators
        RiskEventType.VPN = true := by
  intro st k o
  refine ⟨rfl, rfl, ?_⟩
  exact getKey_setKey_same st.indicators RiskEventType.VPN true

/-- C8: submitting a transfer of 60000 against the configured threshold
50000 emits LARGE_TRANSFER with metadata `{amount: 60000}`, and processing
that event raises the score by its weight 35 subject to the `[0,100]`
clamp; submitting 40000 emits nothing. -/
theorem c8_large_transfer_guard :
    paymentsSubmitEmission 60000
      = some { type := LARGE_TRANSFER, meta := [("amount", 60000)] } ∧
    paymentsSubmitEmission 40000 = none ∧
    ∀ st : EngineState,
      (onEvent LARGE_TRANSFER st).score = clamp (st.score + 35) 0 100 := by
  refine ⟨?_, ?_, fun st => rfl⟩
  · rw [paymentsSubmitEmission,
      if_pos (show (60000 : ℚ) > largeTransferThreshold by
        rw [largeTransferThreshold]; norm_num)]
  · rw [paymentsSubmitEmission,
      if_neg (show ¬(40000 : ℚ) > largeTransferThreshold by
        rw [largeTransferThreshold]; norm_num)]

/-- C9: after a listener's unsubscribe handle runs, that listener is not
among the recipients of any later emit, whatever other subscriptions and
unsubscriptions happen in between (as long as it is not re-subscribed);
the handle is idempotent, and any later invocation of it is a no-op. -/
theorem c9_unsubscribe_guarantee :
    ∀ (s : Finset ℕ) (id : ℕ) (ops : List BusOp),
      BusOp.subscribe id ∉ ops →
        id ∉ emitRecipients (ops.foldl applyBusOp (busUnsubscribe s id)) ∧
        busUnsubscribe (busUnsubscribe s id) id = busUnsubscribe s id ∧
        busUnsubscribe (ops.foldl applyBusOp (busUnsubscribe s id)) id
          = ops.foldl applyBusOp (busUnsubscribe s id) := by
  intro s id ops hops
  have hout : id ∉ ops.foldl applyBusOp (busUnsubscribe s id) :=
    notMem_applyBusOps id ops (busUnsubscribe s id)
      (Finset.not_mem_erase id s) hops
  exact ⟨hout, Finset.erase_idem,
    Finset.erase_eq_of_not_mem hout⟩

/-- Witness for C9 on a concrete listener set and action sequence. -/
theorem c9_unsubscribe_guarantee_witness :
    1 ∉ emitRecipients
      ([BusOp.subscribe 2, BusOp.unsubscribe 2, BusOp.subscribe 3].foldl
        applyBusOp (busUnsubscribe {1, 2} 1)) ∧
    busUnsubscribe (busUnsubscribe {1, 2} 1) 1 = busUnsubscribe {1, 2} 1 ∧
    busUnsubscribe
        ([BusOp.subscribe 2, BusOp.unsubscribe 2, BusOp.subscribe 3].foldl
          applyBusOp (busUnsubscribe {1, 2} 1)) 1
      = [BusOp.subscribe 2, BusOp.unsubscribe 2, BusOp.subscribe 3].foldl
          applyBusOp (busUnsubscribe {1, 2} 1) :=
  c9_unsubscribe_guarantee {1, 2} 1
    [BusOp.subscribe 2, BusOp.unsubscribe 2, BusOp.subscribe 3] (by decide)

/-- C10: a decay tick never increases a score in `[0, 100]`, and 0 is a
fixpoint of the decay step, so absent events the score is monotonically
non-increasing over ticks and stays at 0 once there. -/
theorem c10_decay_nonincreasing :
    (∀ s : Int, 0 ≤ s → s ≤ 100 → decayScore s ≤ s) ∧ decayScore 0 = 0 := by
  constructor
  · intro s h0 h1
    rw [decayScore_eq_of_nonneg s h0]
    omega
  · rw [decayScore_eq_of_nonneg 0 (by norm_num)]
    decide

/-- Witness for C10 at the concrete score 100. -/
theorem c10_decay_nonincreasing_witness : decayScore 100 ≤ 100 :=
  c10_decay_nonincreasing.1 100 (by norm_num) (by norm_num)
